import Mathlib

/-!
# Sauron: selection and forwarding plane, shallow embedding

This file embeds the core data model and operations of the Sauron
height-aware reverse proxy: the height store (`hsUpdate` and friends),
the external endpoint store (`storeAdvertised`, `markValidated`,
`markValidationFailed`, `incrementErrorCount`, `trackProxyError`, ...),
the selector (`assembleCandidates`, `getBestNode`, `getEndpointURL`),
the HTTP/gRPC proxy request paths (`serveHTTP`, `grpcProxyHandler`),
the external ring checker (`queryRing`) and the API/RPC health checkers
(`apiCheckNode`, `rpcCheckNode`).

Go `int64` values (heights, latencies as `time.Duration` nanoseconds,
thresholds) are embedded as `Int`; `time.Duration` division in Go
truncates toward zero, which is `Int.tdiv`.  Go maps are embedded as
association lists with unique keys, where `updateAssoc` mirrors an
in-place mutation through a looked-up pointer and iteration order is
the list order.  Timestamps (`time.Now()`) are passed in as explicit
`Nat` arguments.  Network and filesystem effects of the checkers and
proxies are passed in as explicit probe-outcome arguments.
-/

/-- Endpoint protocol flavor; the Go code passes the strings
"api", "rpc", "grpc". -/
inductive Proto
  | api
  | rpc
  | grpc
deriving DecidableEq, Repr

/-- The wire string for a protocol, as used in store keys. -/
def Proto.str : Proto → String
  | .api => "api"
  | .rpc => "rpc"
  | .grpc => "grpc"

/-- `config.Node`: an internal node inventory entry. -/
structure Node where
  name : String
  api : String
  rpc : String
  grpc : String
  grpcInsecure : Bool
  network : String
deriving DecidableEq, Repr

/-- `selector.normalizeURL`: prepend "https://" when the URL is non-empty
and its first character is not 'h'. -/
def normalizeURL (url : String) : String :=
  if url = "" then ""
  else if url.front ≠ 'h' then "https://" ++ url
  else url

/-- The per-protocol URL of an internal node, as the `switch` in
`Selector.GetEndpointURL` computes it. -/
def nodeProtoURL (node : Node) : Proto → String
  | .api => normalizeURL node.api
  | .rpc => normalizeURL node.rpc
  | .grpc => node.grpc

/-- `Selector.GetEndpointURL`: resolve a selector identifier to a target URL.
Internal node names resolve to the configured per-protocol URL; identifiers
of shape `ext:<url>` resolve to `<url>`; anything else resolves to "". -/
def getEndpointURL (internals : List Node) (nodeName : String) (endpointType : Proto) : String :=
  match internals.find? (fun node => node.name == nodeName) with
  | some node => nodeProtoURL node endpointType
  | none =>
    if nodeName.length > 4 ∧ nodeName.take 4 = "ext:" then nodeName.drop 4
    else ""

/-- `storage.NodeMetrics`: the height store entry for one
(network, node, protocol) key. -/
structure NodeMetrics where
  height : Int
  timestamp : Nat
  source : String
  latencyHistory : List Int
  avgLatency : Int
  wsAvailable : Bool
deriving DecidableEq, Repr

/-- `storage.ExternalEndpoint`: a peer-advertised endpoint with its
validation state. -/
structure Endpoint where
  url : String
  network : String
  etype : String
  externalName : String
  ringURL : String
  isValidated : Bool
  isWorking : Bool
  errorCount : Int
  lastValidated : Nat
  lastError : Nat
  wsAvailable : Bool
  height : Int
  latency : Int
deriving DecidableEq, Repr

/-- The external endpoint store: a map from key strings to endpoints,
embedded as an association list with unique keys. -/
abbrev EndpointStore := List (String × Endpoint)

/-- The height store, likewise keyed by "network:node:type". -/
abbrev HeightStore := List (String × NodeMetrics)

/-- Look up a key in an association list (Go map read). -/
def lookupAssoc {β : Type} (key : String) (s : List (String × β)) : Option β :=
  (s.find? (fun e => e.1 == key)).map (fun e => e.2)

/-- Mutate the entry under `key` in place, if present (Go pattern:
look up a pointer, mutate through it). -/
def updateAssoc {β : Type} (key : String) (f : β → β) : List (String × β) → List (String × β)
  | [] => []
  | (k, v) :: rest =>
    if k = key then (k, f v) :: rest
    else (k, v) :: updateAssoc key f rest

/-- Insert a fresh entry (Go map write of a new key). -/
def insertAssoc {β : Type} (key : String) (v : β) (s : List (String × β)) : List (String × β) :=
  s ++ [(key, v)]

/-- `ExternalEndpointStore.makeKey`. -/
def makeEndpointKey (externalName ringURL network etype url : String) : String :=
  externalName ++ ":" ++ ringURL ++ ":" ++ network ++ ":" ++ etype ++ ":" ++ url

/-- `ExternalEndpointStore.StoreAdvertised`: update the URL of an existing
entry, or create a fresh unvalidated one. -/
def storeAdvertised (externalName ringURL network etype url : String) (s : EndpointStore) : EndpointStore :=
  let key := makeEndpointKey externalName ringURL network etype url
  match lookupAssoc key s with
  | some _ => updateAssoc key (fun ep => { ep with url := url }) s
  | none =>
    insertAssoc key
      { url := url, network := network, etype := etype,
        externalName := externalName, ringURL := ringURL,
        isValidated := false, isWorking := false, errorCount := 0,
        lastValidated := 0, lastError := 0, wsAvailable := false,
        height := 0, latency := 0 } s

/-- `ExternalEndpointStore.MarkValidated`: set validated+working, reset the
error count, record height and latency.  Missing keys are left untouched. -/
def markValidated (externalName ringURL network etype url : String)
    (height latency : Int) (now : Nat) (s : EndpointStore) : EndpointStore :=
  updateAssoc (makeEndpointKey externalName ringURL network etype url)
    (fun ep => { ep with isValidated := true, isWorking := true, errorCount := 0,
                         lastValidated := now, height := height, latency := latency }) s

/-- `ExternalEndpointStore.MarkValidationFailed`. -/
def markValidationFailed (externalName ringURL network etype url : String)
    (now : Nat) (s : EndpointStore) : EndpointStore :=
  updateAssoc (makeEndpointKey externalName ringURL network etype url)
    (fun ep => { ep with isValidated := false, isWorking := false, lastError := now }) s

/-- The shared error bump of `IncrementErrorCount` and `TrackProxyError`:
increment the count, stamp the error time, and flip `isWorking` off in the
same update once the count reaches 3. -/
def bumpError (now : Nat) (ep : Endpoint) : Endpoint :=
  let ep' := { ep with errorCount := ep.errorCount + 1, lastError := now }
  if ep'.errorCount ≥ 3 ∧ ep'.isWorking then { ep' with isWorking := false }
  else ep'

/-- `ExternalEndpointStore.IncrementErrorCount` (key-addressed). -/
def incrementErrorCount (externalName ringURL network etype url : String)
    (now : Nat) (s : EndpointStore) : EndpointStore :=
  updateAssoc (makeEndpointKey externalName ringURL network etype url) (bumpError now) s

/-- `ExternalEndpointStore.TrackProxyError` (URL-addressed): bump the first
endpoint matching (network, type, url); report whether one was found. -/
def trackProxyError (network etype url : String) (now : Nat) :
    EndpointStore → EndpointStore × Bool
  | [] => ([], false)
  | (k, ep) :: rest =>
    if ep.network = network ∧ ep.etype = etype ∧ ep.url = url then
      ((k, bumpError now ep) :: rest, true)
    else
      let r := trackProxyError network etype url now rest
      ((k, ep) :: r.1, r.2)

/-- `ExternalEndpointStore.RemoveEndpoint` (Go `delete`). -/
def removeEndpoint (externalName ringURL network etype url : String) (s : EndpointStore) : EndpointStore :=
  s.filter (fun e => !(e.1 == makeEndpointKey externalName ringURL network etype url))

/-- `ExternalEndpointStore.UpdateWebSocketAvailability`. -/
def updateWebSocketAvailability (externalName ringURL network etype url : String)
    (available : Bool) (s : EndpointStore) : EndpointStore :=
  updateAssoc (makeEndpointKey externalName ringURL network etype url)
    (fun ep => { ep with wsAvailable := available }) s

/-- `ExternalEndpointStore.GetValidatedEndpoints`: copies of all
validated-and-working endpoints of a (network, type). -/
def getValidatedEndpoints (network etype : String) (s : EndpointStore) : List Endpoint :=
  (s.map (fun e => e.2)).filter
    (fun ep => ep.network == network && ep.etype == etype && ep.isValidated && ep.isWorking)

/-- `ExternalEndpointStore.GetFailedEndpoints`: validated but not working. -/
def getFailedEndpoints (s : EndpointStore) : List Endpoint :=
  (s.map (fun e => e.2)).filter (fun ep => ep.isValidated && !ep.isWorking)

/-- `selector.nodeWithName`: a selection candidate. -/
structure Candidate where
  name : String
  metrics : NodeMetrics
deriving DecidableEq, Repr

/-- `selector.SelectionDecision`. -/
structure SelectionDecision where
  selectedNode : String
  reason : String
  candidates : Nat
  maxHeight : Int
  selectedLatency : Int
deriving DecidableEq, Repr

/-- The running-maximum fold over candidate heights, starting at 0, used by
`GetBestNode` both for internal candidates and for the combined list. -/
def maxCandidateHeight (nodes : List Candidate) : Int :=
  nodes.foldl (fun acc n => if n.metrics.height > acc then n.metrics.height else acc) 0

/-- The running-maximum fold over external endpoint heights, starting at 0. -/
def maxEndpointHeight (eps : List Endpoint) : Int :=
  eps.foldl (fun acc ep => if ep.height > acc then ep.height else acc) 0

/-- A synthetic candidate for an external endpoint, named `ext:<url>`. -/
def extCandidate (ep : Endpoint) : Candidate :=
  { name := "ext:" ++ ep.url,
    metrics := { height := ep.height, avgLatency := ep.latency,
                 timestamp := ep.lastValidated, source := "external",
                 latencyHistory := [], wsAvailable := ep.wsAvailable } }

/-- Candidate assembly of `Selector.GetBestNode`: externals are appended iff
there is no healthy internal (max internal height 0) or the externals lead
by more than the threshold (configured value, defaulting to 2 when 0). -/
def assembleCandidates (internals : List Candidate) (externals : List Endpoint)
    (threshold : Int) : List Candidate :=
  let maxInternalHeight := maxCandidateHeight internals
  let thr := if threshold = 0 then 2 else threshold
  let maxExternalHeight := maxEndpointHeight externals
  if (maxInternalHeight = 0 ∨ maxExternalHeight > maxInternalHeight + thr)
      ∧ externals.length > 0 then
    internals ++ externals.map extCandidate
  else internals

/-- Go's `math.MaxInt64`, the initial running minimum of the latency scan. -/
def maxInt64 : Int := 9223372036854775807

/-- The min-latency scan of `GetBestNode` step 3: strict comparison against
the running minimum, so the first-seen candidate wins latency ties.  `none`
means the zero-valued `bestNode` was never assigned (its `metrics` pointer
stays nil in Go). -/
def selectMinLatency (nodes : List Candidate) : Int × Option Candidate :=
  nodes.foldl
    (fun acc n => if n.metrics.avgLatency < acc.1 then (n.metrics.avgLatency, some n) else acc)
    (maxInt64, none)

/-- `Selector.GetBestNode` on already-loaded store snapshots.  `none` is the
three-nil result (no candidates, zero max height, or a nil `bestNode.metrics`,
all of which callers treat as "no node"). -/
def getBestNode (internals : List Candidate) (externals : List Endpoint)
    (threshold : Int) : Option (Candidate × SelectionDecision) :=
  let nodes := assembleCandidates internals externals threshold
  if nodes.length = 0 then none
  else
    let maxHeight := maxCandidateHeight nodes
    if maxHeight = 0 then none
    else
      let maxHeightNodes := nodes.filter (fun n => n.metrics.height == maxHeight)
      match (selectMinLatency maxHeightNodes).2 with
      | none => none
      | some best =>
        let reason :=
          if nodes.length = 1 then "only_available"
          else if maxHeightNodes.length = 1 then "height_winner"
          else "latency_tiebreaker"
        some (best,
          { selectedNode := best.name, reason := reason,
            candidates := nodes.length, maxHeight := maxHeight,
            selectedLatency := best.metrics.avgLatency })

/-- Observable outcome of one `HTTPProxy.ServeHTTP` call: the locally
written error status (if any), its body, and whether the client connection
was hijacked, a backend websocket dial was attempted, or the request was
handed to the reverse proxy. -/
structure HTTPResponse where
  status : Option Nat
  body : String
  hijacked : Bool
  backendDialAttempted : Bool
  forwarded : Bool
deriving DecidableEq, Repr

/-- `HTTPProxy.handleWebSocket` up to the hijack: re-select, re-check the
`wsAvailable` flag, and reply 503 before hijacking when it is false.  When
the re-selection returns nil metrics the Go guard is skipped and the hijack
proceeds. -/
def handleWebSocket (internals : List Candidate) (externals : List Endpoint)
    (threshold : Int) : HTTPResponse :=
  match getBestNode internals externals threshold with
  | some (best, _) =>
    if !best.metrics.wsAvailable then
      { status := some 503, body := "WebSocket not supported by selected backend",
        hijacked := false, backendDialAttempted := false, forwarded := false }
    else
      { status := none, body := "", hijacked := true,
        backendDialAttempted := true, forwarded := false }
  | none =>
    { status := none, body := "", hijacked := true,
      backendDialAttempted := true, forwarded := false }

/-- `HTTPProxy.ServeHTTP` control flow: selection, resolution, URL parse,
then either the websocket path or the reverse-proxy forward.  `parseOk`
stands for `url.Parse` succeeding on the resolved target. -/
def serveHTTP (internals : List Candidate) (externals : List Endpoint) (threshold : Int)
    (cfgInternals : List Node) (endpointType : Proto) (isWS parseOk : Bool) : HTTPResponse :=
  match getBestNode internals externals threshold with
  | none =>
    { status := some 503, body := "No available nodes",
      hijacked := false, backendDialAttempted := false, forwarded := false }
  | some (best, _) =>
    let targetURL := getEndpointURL cfgInternals best.name endpointType
    if targetURL = "" then
      { status := some 500, body := "Internal server error",
        hijacked := false, backendDialAttempted := false, forwarded := false }
    else if !parseOk then
      { status := some 500, body := "Internal server error",
        hijacked := false, backendDialAttempted := false, forwarded := false }
    else if isWS then handleWebSocket internals externals threshold
    else
      { status := none, body := "", hijacked := false,
        backendDialAttempted := false, forwarded := true }

/-- Observable outcome of one `GRPCProxy.proxyHandler` call before any
frame forwarding. -/
inductive GRPCResult
  | err (code : String) (msg : String)
  | forwarded (target : String)
deriving DecidableEq, Repr

/-- `GRPCProxy.proxyHandler` control flow: method extraction, selection,
resolution, then forwarding.  `methodOk` stands for
`grpc.MethodFromServerStream` succeeding. -/
def grpcProxyHandler (internals : List Candidate) (externals : List Endpoint)
    (threshold : Int) (cfgInternals : List Node) (methodOk : Bool) : GRPCResult :=
  if !methodOk then .err "Internal" "failed to get method name"
  else
    match getBestNode internals externals threshold with
    | none => .err "Unavailable" "no available nodes"
    | some (best, _) =>
      let targetAddr := getEndpointURL cfgInternals best.name .grpc
      if targetAddr = "" then .err "Internal" "failed to get endpoint"
      else .forwarded targetAddr

/-- `storage.makeKey` of the height store: "network:node:type". -/
def heightKey (network node etype : String) : String :=
  network ++ ":" ++ node ++ ":" ++ etype

/-- The zero-valued `NodeMetrics` that `LoadOrStore` installs for a fresh
key (empty latency window). -/
def emptyMetrics : NodeMetrics :=
  { height := 0, timestamp := 0, source := "", latencyHistory := [],
    avgLatency := 0, wsAvailable := false }

/-- `storage.LatencyHistorySize`. -/
def latencyHistorySize : Nat := 10

/-- Sum of a latency window (Go: `for _, l := range ... { sum += l }`). -/
def latencySum (l : List Int) : Int := l.foldl (fun acc x => acc + x) 0

/-- `HeightStore.Update`: set height/timestamp/source, append the latency
sample, evict the oldest once the window exceeds 10, and recompute the
truncating-integer mean. -/
def hsUpdate (network node etype : String) (height latency : Int)
    (source : String) (now : Nat) (s : HeightStore) : HeightStore :=
  let key := heightKey network node etype
  let old := (lookupAssoc key s).getD emptyMetrics
  let hist0 := old.latencyHistory ++ [latency]
  let hist := if hist0.length > latencyHistorySize then hist0.drop 1 else hist0
  let m : NodeMetrics :=
    { old with height := height, timestamp := now, source := source,
               latencyHistory := hist,
               avgLatency := Int.tdiv (latencySum hist) (hist.length : Int) }
  match lookupAssoc key s with
  | some _ => updateAssoc key (fun _ => m) s
  | none => insertAssoc key m s

/-- `HeightStore.UpdateWebSocketAvailability` (`LoadOrStore` then set). -/
def hsUpdateWebSocket (network node etype : String) (available : Bool)
    (s : HeightStore) : HeightStore :=
  let key := heightKey network node etype
  match lookupAssoc key s with
  | some _ => updateAssoc key (fun m => { m with wsAvailable := available }) s
  | none => insertAssoc key { emptyMetrics with wsAvailable := available } s

/-- `strconv.ParseInt(s, 10, 64)`: optional sign, at least one decimal
digit, nothing else, and the value must fit in a signed 64-bit integer. -/
def parseInt64 (s : String) : Option Int :=
  let step : Option Nat → Char → Option Nat := fun acc c =>
    match acc with
    | none => none
    | some n => if c.isDigit then some (n * 10 + (c.toNat - '0'.toNat)) else none
  let signed : Int × List Char :=
    match s.data with
    | '+' :: rest => (1, rest)
    | '-' :: rest => (-1, rest)
    | l => (1, l)
  if signed.2 = [] then none
  else
    match signed.2.foldl step (some 0) with
    | none => none
    | some n =>
      let v : Int := signed.1 * (n : Int)
      if v < -(2 ^ 63) ∨ v > 2 ^ 63 - 1 then none else some v

/-- Outcome of one HTTP fetch performed by a checker, with the parsed body:
request-creation failure, network failure, or a response with a status code
and (for 200) a body that may fail to read (`none`) or fail to parse as
JSON (`some none`). -/
inductive HTTPFetch (α : Type)
  | reqError
  | netError
  | resp (status : Nat) (body : Option (Option α))
deriving DecidableEq, Repr

/-- `checker.APIBlockResponse`: the two height fields of the latest-block
JSON body. -/
structure APIBlockResponse where
  blockHeight : String
  sdkBlockHeight : String
deriving DecidableEq, Repr

/-- `APIChecker.CheckNode` on a given fetch outcome: on success update the
height store; on any failure return the error type with the store
untouched. -/
def apiCheckNode (node : Node) (fetch : HTTPFetch APIBlockResponse)
    (latency : Int) (now : Nat) (s : HeightStore) : HeightStore × Option String :=
  if node.api = "" then (s, some "no_api_endpoint")
  else
    match fetch with
    | .reqError => (s, some "request_creation")
    | .netError => (s, some "network")
    | .resp status body =>
      if status ≠ 200 then (s, some "http_status")
      else
        match body with
        | none => (s, some "read_body")
        | some none => (s, some "json_parse")
        | some (some apiResp) =>
          let heightStr :=
            if apiResp.sdkBlockHeight ≠ "" then apiResp.sdkBlockHeight
            else apiResp.blockHeight
          if heightStr = "" then (s, some "height_missing")
          else
            match parseInt64 heightStr with
            | none => (s, some "height_parse")
            | some height =>
              (hsUpdate node.network node.name "api" height latency "internal" now s, none)

/-- `checker.RPCStatusResponse`: the height field of the `/status` body. -/
structure RPCStatusResponse where
  latestBlockHeight : String
deriving DecidableEq, Repr

/-- `RPCChecker.CheckNode` on a given fetch outcome: like the API checker
but without a missing-height fallback, and on success it additionally
stores the websocket probe result. -/
def rpcCheckNode (node : Node) (fetch : HTTPFetch RPCStatusResponse)
    (latency : Int) (wsProbe : Bool) (now : Nat) (s : HeightStore) : HeightStore × Option String :=
  if node.rpc = "" then (s, some "no_rpc_endpoint")
  else
    match fetch with
    | .reqError => (s, some "request_creation")
    | .netError => (s, some "network")
    | .resp status body =>
      if status ≠ 200 then (s, some "http_status")
      else
        match body with
        | none => (s, some "read_body")
        | some none => (s, some "json_parse")
        | some (some rpcResp) =>
          match parseInt64 rpcResp.latestBlockHeight with
          | none => (s, some "height_parse")
          | some height =>
            let s1 := hsUpdate node.network node.name "rpc" height latency "internal" now s
            (hsUpdateWebSocket node.network node.name "rpc" wsProbe s1, none)

/-- `checker.ExternalStatusResponse`: a peer ring's status body. -/
structure ExternalStatusResponse where
  height : Int
  api : String
  rpc : String
  grpc : String
  grpcInsecure : Bool
deriving DecidableEq, Repr

/-- One advertised endpoint of `ExternalChecker.queryRing`: store it, probe
it (`probe etype url` returns the measured latency on success), and mark it
validated or validation-failed. -/
def processAdvertised (probe : String → String → Option Int)
    (externalName ringURL network etype url : String) (height : Int)
    (now : Nat) (s : EndpointStore) : EndpointStore :=
  let s' := storeAdvertised externalName ringURL network etype url s
  match probe etype url with
  | some lat => markValidated externalName ringURL network etype url height lat now s'
  | none => markValidationFailed externalName ringURL network etype url now s'

/-- `ExternalChecker.queryRing` on a given fetch outcome: a parsed status
with `height == 0` fails the ring probe before any endpoint is stored or
(in)validated; otherwise each present advertised URL is stored and
validated. -/
def queryRing (probe : String → String → Option Int)
    (externalName ringURL network : String)
    (fetch : HTTPFetch ExternalStatusResponse) (now : Nat)
    (s : EndpointStore) : EndpointStore × Option String :=
  match fetch with
  | .reqError => (s, some "request_creation")
  | .netError => (s, some "network")
  | .resp status body =>
    if status ≠ 200 then (s, some "http_status")
    else
      match body with
      | none => (s, some "read_body")
      | some none => (s, some "json_parse")
      | some (some st) =>
        if st.height = 0 then (s, some "zero_height")
        else
          let s1 := if st.api ≠ "" then
            processAdvertised probe externalName ringURL network "api" st.api st.height now s
            else s
          let s2 := if st.rpc ≠ "" then
            processAdvertised probe externalName ringURL network "rpc" st.rpc st.height now s1
            else s1
          let s3 := if st.grpc ≠ "" then
            processAdvertised probe externalName ringURL network "grpc" st.grpc st.height now s2
            else s2
          (s3, none)

/-- The two ways a proxy error reaches an endpoint: the key-addressed
`IncrementErrorCount` or the URL-addressed `TrackProxyError`. -/
inductive ErrPath
  | direct
  | viaProxy
deriving DecidableEq, Repr

/-- Apply one proxy-error report along either path. -/
def applyError (externalName ringURL network etype url : String)
    (path : ErrPath) (now : Nat) (s : EndpointStore) : EndpointStore :=
  match path with
  | .direct => incrementErrorCount externalName ringURL network etype url now s
  | .viaProxy => (trackProxyError network etype url now s).1

/-- The endpoint store operations, as one step type (arguments as in the
Go methods; `now` stands for `time.Now()`). -/
inductive StoreOp
  | storeAdvertised (externalName ringURL network etype url : String)
  | markValidated (externalName ringURL network etype url : String) (height latency : Int) (now : Nat)
  | markValidationFailed (externalName ringURL network etype url : String) (now : Nat)
  | incrementErrorCount (externalName ringURL network etype url : String) (now : Nat)
  | trackProxyError (network etype url : String) (now : Nat)
  | updateWebSocketAvailability (externalName ringURL network etype url : String) (available : Bool)
  | removeEndpoint (externalName ringURL network etype url : String)
deriving DecidableEq, Repr

/-- Interpret one store operation. -/
def applyStoreOp (s : EndpointStore) : StoreOp → EndpointStore
  | .storeAdvertised externalName ringURL network etype url =>
    storeAdvertised externalName ringURL network etype url s
  | .markValidated externalName ringURL network etype url height latency now =>
    markValidated externalName ringURL network etype url height latency now s
  | .markValidationFailed externalName ringURL network etype url now =>
    markValidationFailed externalName ringURL network etype url now s
  | .incrementErrorCount externalName ringURL network etype url now =>
    incrementErrorCount externalName ringURL network etype url now s
  | .trackProxyError network etype url now =>
    (trackProxyError network etype url now s).1
  | .updateWebSocketAvailability externalName ringURL network etype url available =>
    updateWebSocketAvailability externalName ringURL network etype url available s
  | .removeEndpoint externalName ringURL network etype url =>
    removeEndpoint externalName ringURL network etype url s

/-- The store invariant: a working endpoint is always validated. -/
def workingImpliesValidated (s : EndpointStore) : Prop :=
  ∀ e ∈ s, e.2.isWorking = true → e.2.isValidated = true

/-- A finite sequence of `HeightStore.Update` calls on one key:
each sample is (height, latency, now). -/
def applyHsUpdates (network node etype source : String)
    (us : List (Int × Int × Nat)) (s : HeightStore) : HeightStore :=
  us.foldl (fun acc u => hsUpdate network node etype u.1 u.2.1 source u.2.2 acc) s

/-! ## Helper lemmas -/

theorem ext_take (u : String) : ("ext:" ++ u).take 4 = "ext:" := by
  apply String.ext
  rw [String.data_take, String.data_append]
  rw [List.take_append_eq_append_take]
  simp [String.data]

theorem ext_drop (u : String) : ("ext:" ++ u).drop 4 = u := by
  apply String.ext
  rw [String.data_drop, String.data_append]
  rw [List.drop_append_eq_append_drop]
  simp [String.data]

theorem ext_length_gt (u : String) (h : u ≠ "") : ("ext:" ++ u).length > 4 := by
  rw [String.length_append]
  have h4 : ("ext:" : String).length = 4 := rfl
  have : u.length ≠ 0 := by
    intro h0
    exact h (String.ext (List.length_eq_zero.mp h0))
  omega

/-! ## C5: identifier resolution -/

/-- C5: `GetEndpointURL` resolves a configured internal node name to that
node's per-protocol URL (normalized for api/rpc, as-is for grpc); resolves
`ext:<u>` with non-empty `u` that matches no internal node name to `u`
verbatim; and resolves every other identifier to the empty string. -/
theorem getEndpointURL_resolution (internals : List Node) (p : Proto) :
    (∀ nodeName node, internals.find? (fun n => n.name == nodeName) = some node →
        getEndpointURL internals nodeName p = nodeProtoURL node p) ∧
    (∀ u, u ≠ "" → internals.find? (fun n => n.name == ("ext:" ++ u)) = none →
        getEndpointURL internals ("ext:" ++ u) p = u) ∧
    (∀ nodeName, internals.find? (fun n => n.name == nodeName) = none →
        ¬(nodeName.length > 4 ∧ nodeName.take 4 = "ext:") →
        getEndpointURL internals nodeName p = "") := by
  refine ⟨?_, ?_, ?_⟩
  · intro nodeName node hfind
    simp [getEndpointURL, hfind]
  · intro u hu hfind
    simp only [getEndpointURL, hfind]
    rw [if_pos ⟨ext_length_gt u hu, ext_take u⟩]
    exact ext_drop u
  · intro nodeName hfind hnotext
    simp only [getEndpointURL, hfind]
    exact if_neg hnotext

theorem getEndpointURL_resolution_witness :
    getEndpointURL [⟨"node-1", "api.example.com", "rpc.example.com", "grpc.example.com:443", false, "pocket"⟩]
        "node-1" .api = "https://api.example.com" ∧
    getEndpointURL [⟨"node-1", "api.example.com", "rpc.example.com", "grpc.example.com:443", false, "pocket"⟩]
        ("ext:" ++ "https://u.example.com") .rpc = "https://u.example.com" ∧
    getEndpointURL [⟨"node-1", "api.example.com", "rpc.example.com", "grpc.example.com:443", false, "pocket"⟩]
        "gondor" .grpc = "" := by
  have h1 := (getEndpointURL_resolution
    [⟨"node-1", "api.example.com", "rpc.example.com", "grpc.example.com:443", false, "pocket"⟩] Proto.api).1
  have h2 := (getEndpointURL_resolution
    [⟨"node-1", "api.example.com", "rpc.example.com", "grpc.example.com:443", false, "pocket"⟩] Proto.rpc).2.1
  have h3 := (getEndpointURL_resolution
    [⟨"node-1", "api.example.com", "rpc.example.com", "grpc.example.com:443", false, "pocket"⟩] Proto.grpc).2.2
  refine ⟨?_, ?_, ?_⟩
  · rw [h1 "node-1" ⟨"node-1", "api.example.com", "rpc.example.com", "grpc.example.com:443", false, "pocket"⟩ (by decide)]
    decide
  · exact h2 "https://u.example.com" (by decide) (by decide)
  · exact h3 "gondor" (by decide) (by decide)

/-! ## C1: failover asymmetry -/

/-- C1: the candidate set assembled by `GetBestNode` equals the internal
candidates plus the validated-and-working externals exactly when the
maximum internal height is 0 or the maximum external height exceeds the
maximum internal height plus the threshold (configured value, default 2
when configured as 0); otherwise it is the internal candidates alone. -/
theorem assembleCandidates_failover (internals : List Candidate) (store : EndpointStore)
    (network : String) (p : Proto) (threshold : Int) :
    assembleCandidates internals (getValidatedEndpoints network p.str store) threshold =
      if maxCandidateHeight internals = 0 ∨
         maxEndpointHeight (getValidatedEndpoints network p.str store) >
           maxCandidateHeight internals + (if threshold = 0 then 2 else threshold)
      then internals ++ (getValidatedEndpoints network p.str store).map extCandidate
      else internals := by
  unfold assembleCandidates
  cases hE : getValidatedEndpoints network p.str store with
  | nil => simp
  | cons e es =>
    by_cases hc : maxCandidateHeight internals = 0 ∨
        maxEndpointHeight (e :: es) > maxCandidateHeight internals +
          (if threshold = 0 then 2 else threshold)
    · rw [if_pos ⟨hc, by simp⟩, if_pos hc]
    · rw [if_neg ?_, if_neg hc]
      intro hand
      exact hc hand.1

/-! ## C8: zero-height ring probe -/

/-- C8: a ring status response that parses with `height == 0` fails the
ring probe with error type `zero_height` and leaves the endpoint store
entirely unchanged — nothing is stored, validated, or marked failed. -/
theorem queryRing_zero_height (probe : String → String → Option Int)
    (externalName ringURL network : String) (st : ExternalStatusResponse)
    (now : Nat) (s : EndpointStore) (h : st.height = 0) :
    queryRing probe externalName ringURL network (.resp 200 (some (some st))) now s
      = (s, some "zero_height") := by
  simp [queryRing, h]

theorem queryRing_zero_height_witness :
    queryRing (fun _ _ => some 5) "pnf" "https://ring.example.com" "pocket"
        (.resp 200 (some (some ⟨0, "https://a", "https://r", "g:9", false⟩))) 3
        [("k", { url := "https://a", network := "pocket", etype := "api",
                 externalName := "pnf", ringURL := "https://ring.example.com",
                 isValidated := true, isWorking := true, errorCount := 0,
                 lastValidated := 0, lastError := 0, wsAvailable := false,
                 height := 7, latency := 2 })]
      = ([("k", { url := "https://a", network := "pocket", etype := "api",
                  externalName := "pnf", ringURL := "https://ring.example.com",
                  isValidated := true, isWorking := true, errorCount := 0,
                  lastValidated := 0, lastError := 0, wsAvailable := false,
                  height := 7, latency := 2 })], some "zero_height") :=
  queryRing_zero_height _ _ _ _ _ _ _ rfl

/-! ## C3: error-threshold transition -/

theorem updateAssoc_decomp {β : Type} (key : String) (f : β → β)
    (pre post : List (String × β)) (v : β)
    (hpre : ∀ e ∈ pre, e.1 ≠ key) :
    updateAssoc key f (pre ++ (key, v) :: post) = pre ++ (key, f v) :: post := by
  induction pre with
  | nil => simp [updateAssoc]
  | cons e rest ih =>
    obtain ⟨k, w⟩ := e
    have hk : k ≠ key := hpre (k, w) (List.mem_cons_self _ _)
    simp only [List.cons_append, updateAssoc, if_neg hk, List.append_eq]
    rw [ih (fun e he => hpre e (List.mem_cons_of_mem _ he))]

theorem lookupAssoc_decomp {β : Type} (key : String)
    (pre post : List (String × β)) (v : β)
    (hpre : ∀ e ∈ pre, e.1 ≠ key) :
    lookupAssoc key (pre ++ (key, v) :: post) = some v := by
  induction pre with
  | nil => simp [lookupAssoc]
  | cons e rest ih =>
    obtain ⟨k, w⟩ := e
    have hk : k ≠ key := hpre (k, w) (List.mem_cons_self _ _)
    simp only [List.cons_append, lookupAssoc, List.find?] at ih ⊢
    rw [show ((k == key) = false) from beq_eq_false_iff_ne.mpr hk]
    exact ih (fun e he => hpre e (List.mem_cons_of_mem _ he))

theorem trackProxyError_decomp (network etype url : String) (now : Nat)
    (pre post : EndpointStore) (k : String) (ep : Endpoint)
    (hpre : ∀ e ∈ pre, ¬(e.2.network = network ∧ e.2.etype = etype ∧ e.2.url = url))
    (hm : ep.network = network ∧ ep.etype = etype ∧ ep.url = url) :
    trackProxyError network etype url now (pre ++ (k, ep) :: post)
      = (pre ++ (k, bumpError now ep) :: post, true) := by
  induction pre with
  | nil => simp [trackProxyError, hm]
  | cons e rest ih =>
    obtain ⟨k', w⟩ := e
    have hw : ¬(w.network = network ∧ w.etype = etype ∧ w.url = url) :=
      hpre (k', w) (List.mem_cons_self _ _)
    simp only [List.cons_append, trackProxyError, if_neg hw, List.append_eq]
    rw [ih (fun e he => hpre e (List.mem_cons_of_mem _ he))]

/-- When the incremented count stays below 3 (or the endpoint is already
not working), `bumpError` only increments and stamps. -/
theorem bumpError_below (now : Nat) (ep : Endpoint)
    (h : ¬(ep.errorCount + 1 ≥ 3 ∧ ep.isWorking = true)) :
    bumpError now ep = { ep with errorCount := ep.errorCount + 1, lastError := now } := by
  simp only [bumpError]
  rw [if_neg]
  simpa using h

/-- When the incremented count reaches 3 on a working endpoint,
`bumpError` also flips `isWorking` off in the same update. -/
theorem bumpError_hit (now : Nat) (ep : Endpoint)
    (h3 : ep.errorCount + 1 ≥ 3) (hw : ep.isWorking = true) :
    bumpError now ep
      = { ep with errorCount := ep.errorCount + 1, lastError := now, isWorking := false } := by
  simp only [bumpError]
  rw [if_pos]
  exact ⟨h3, hw⟩

theorem applyError_decomp (externalName ringURL network etype url : String)
    (path : ErrPath) (now : Nat) (pre post : EndpointStore) (ep : Endpoint)
    (hpreKey : ∀ e ∈ pre, e.1 ≠ makeEndpointKey externalName ringURL network etype url)
    (hpreMatch : ∀ e ∈ pre, ¬(e.2.network = network ∧ e.2.etype = etype ∧ e.2.url = url))
    (hm : ep.network = network ∧ ep.etype = etype ∧ ep.url = url) :
    applyError externalName ringURL network etype url path now
        (pre ++ (makeEndpointKey externalName ringURL network etype url, ep) :: post)
      = pre ++ (makeEndpointKey externalName ringURL network etype url, bumpError now ep) :: post := by
  cases path with
  | direct =>
    exact updateAssoc_decomp _ _ _ _ _ hpreKey
  | viaProxy =>
    show (trackProxyError network etype url now _).1 = _
    rw [trackProxyError_decomp network etype url now pre post _ ep hpreMatch hm]


/-- C3: starting from a validated, working endpoint with `errorCount = 0`,
three consecutive proxy-error reports (each via `IncrementErrorCount` or
`TrackProxyError`, in any mix) leave it working after the first two and
flip `isWorking` to false in the same update in which `errorCount` reaches
3; a subsequent successful `MarkValidated` resets `errorCount` to 0 and
sets `isWorking` (and `isValidated`) back to true. -/
theorem errorThreshold_transition
    (externalName ringURL network etype url : String)
    (pre post : EndpointStore) (ep : Endpoint)
    (p1 p2 p3 : ErrPath) (n1 n2 n3 n4 : Nat) (height lat : Int)
    (hpreKey : ∀ e ∈ pre, e.1 ≠ makeEndpointKey externalName ringURL network etype url)
    (hpreMatch : ∀ e ∈ pre, ¬(e.2.network = network ∧ e.2.etype = etype ∧ e.2.url = url))
    (hm : ep.network = network ∧ ep.etype = etype ∧ ep.url = url)
    (hval : ep.isValidated = true) (hwork : ep.isWorking = true)
    (hcount : ep.errorCount = 0) :
    let key := makeEndpointKey externalName ringURL network etype url
    let s0 := pre ++ (key, ep) :: post
    let s1 := applyError externalName ringURL network etype url p1 n1 s0
    let s2 := applyError externalName ringURL network etype url p2 n2 s1
    let s3 := applyError externalName ringURL network etype url p3 n3 s2
    let s4 := markValidated externalName ringURL network etype url height lat n4 s3
    (∃ e1, lookupAssoc key s1 = some e1 ∧
      e1.errorCount = 1 ∧ e1.isWorking = true ∧ e1.isValidated = true) ∧
    (∃ e2, lookupAssoc key s2 = some e2 ∧
      e2.errorCount = 2 ∧ e2.isWorking = true ∧ e2.isValidated = true) ∧
    (∃ e3, lookupAssoc key s3 = some e3 ∧
      e3.errorCount = 3 ∧ e3.isWorking = false ∧ e3.isValidated = true) ∧
    (∃ e4, lookupAssoc key s4 = some e4 ∧
      e4.errorCount = 0 ∧ e4.isWorking = true ∧ e4.isValidated = true) := by
  intro key s0 s1 s2 s3 s4
  have hb1 : bumpError n1 ep = { ep with errorCount := ep.errorCount + 1, lastError := n1 } := by
    apply bumpError_below
    rw [hcount]
    intro hc
    norm_num at hc
  set ep1 : Endpoint := { ep with errorCount := ep.errorCount + 1, lastError := n1 } with hep1
  have hs1 : s1 = pre ++ (key, ep1) :: post := by
    show applyError externalName ringURL network etype url p1 n1 s0 = _
    rw [show (s0 : EndpointStore) = pre ++ (key, ep) :: post from rfl,
      applyError_decomp externalName ringURL network etype url p1 n1 pre post ep hpreKey hpreMatch hm,
      hb1]
  have hm1 : ep1.network = network ∧ ep1.etype = etype ∧ ep1.url = url := hm
  have hcount1 : ep1.errorCount = 1 := by rw [hep1]; simp [hcount]
  have hb2 : bumpError n2 ep1 = { ep1 with errorCount := ep1.errorCount + 1, lastError := n2 } := by
    apply bumpError_below
    rw [hcount1]
    intro hc
    norm_num at hc
  set ep2 : Endpoint := { ep1 with errorCount := ep1.errorCount + 1, lastError := n2 } with hep2
  have hs2 : s2 = pre ++ (key, ep2) :: post := by
    show applyError externalName ringURL network etype url p2 n2 s1 = _
    rw [hs1,
      applyError_decomp externalName ringURL network etype url p2 n2 pre post ep1 hpreKey hpreMatch hm1,
      hb2]
  have hm2 : ep2.network = network ∧ ep2.etype = etype ∧ ep2.url = url := hm
  have hcount2 : ep2.errorCount = 2 := by show ep1.errorCount + 1 = 2; omega
  have hwork2 : ep2.isWorking = true := hwork
  have hb3 : bumpError n3 ep2
      = { ep2 with errorCount := ep2.errorCount + 1, lastError := n3, isWorking := false } := by
    apply bumpError_hit
    · rw [hcount2]; norm_num
    · exact hwork2
  set ep3 : Endpoint :=
    { ep2 with errorCount := ep2.errorCount + 1, lastError := n3, isWorking := false } with hep3
  have hs3 : s3 = pre ++ (key, ep3) :: post := by
    show applyError externalName ringURL network etype url p3 n3 s2 = _
    rw [hs2,
      applyError_decomp externalName ringURL network etype url p3 n3 pre post ep2 hpreKey hpreMatch hm2,
      hb3]
  set ep4 : Endpoint :=
    { ep3 with isValidated := true, isWorking := true, errorCount := 0,
               lastValidated := n4, height := height, latency := lat } with hep4
  have hs4 : s4 = pre ++ (key, ep4) :: post := by
    show markValidated externalName ringURL network etype url height lat n4 s3 = _
    rw [hs3]
    exact updateAssoc_decomp _ _ _ _ _ hpreKey
  refine ⟨⟨ep1, ?_, hcount1, hwork, hval⟩,
          ⟨ep2, ?_, hcount2, hwork2, hval⟩,
          ⟨ep3, ?_, ?_, rfl, hval⟩,
          ⟨ep4, ?_, rfl, rfl, rfl⟩⟩
  · rw [hs1]; exact lookupAssoc_decomp _ _ _ _ hpreKey
  · rw [hs2]; exact lookupAssoc_decomp _ _ _ _ hpreKey
  · rw [hs3]; exact lookupAssoc_decomp _ _ _ _ hpreKey
  · show ep2.errorCount + 1 = 3; omega
  · rw [hs4]; exact lookupAssoc_decomp _ _ _ _ hpreKey

theorem errorThreshold_transition_witness :
    (∃ e3, lookupAssoc "pnf:r:pocket:api:https://a"
        (applyError "pnf" "r" "pocket" "api" "https://a" ErrPath.direct 3
          (applyError "pnf" "r" "pocket" "api" "https://a" ErrPath.viaProxy 2
            (applyError "pnf" "r" "pocket" "api" "https://a" ErrPath.direct 1
              [("pnf:r:pocket:api:https://a",
                ⟨"https://a", "pocket", "api", "pnf", "r", true, true, 0, 0, 0, false, 100, 5⟩)]))) = some e3 ∧
      e3.errorCount = 3 ∧ e3.isWorking = false ∧ e3.isValidated = true) :=
  (errorThreshold_transition "pnf" "r" "pocket" "api" "https://a" [] []
    ⟨"https://a", "pocket", "api", "pnf", "r", true, true, 0, 0, 0, false, 100, 5⟩
    .direct .viaProxy .direct 1 2 3 4 101 6
    (by simp) (by simp) ⟨rfl, rfl, rfl⟩ rfl rfl rfl).2.2.1

/-! ## C9: working implies validated -/

theorem bumpError_pres (now : Nat) (ep : Endpoint)
    (h : ep.isWorking = true → ep.isValidated = true) :
    (bumpError now ep).isWorking = true → (bumpError now ep).isValidated = true := by
  by_cases hc : ep.errorCount + 1 ≥ 3 ∧ ep.isWorking = true
  · rw [bumpError_hit now ep hc.1 hc.2]
    intro hw
    simp at hw
  · rw [bumpError_below now ep hc]
    exact h

theorem storeAdvertised_found (externalName ringURL network etype url : String)
    (ep : Endpoint) (s : EndpointStore)
    (h : lookupAssoc (makeEndpointKey externalName ringURL network etype url) s = some ep) :
    storeAdvertised externalName ringURL network etype url s
      = updateAssoc (makeEndpointKey externalName ringURL network etype url)
          (fun e => { e with url := url }) s := by
  simp only [storeAdvertised]
  rw [h]

theorem storeAdvertised_missing (externalName ringURL network etype url : String)
    (s : EndpointStore)
    (h : lookupAssoc (makeEndpointKey externalName ringURL network etype url) s = none) :
    storeAdvertised externalName ringURL network etype url s
      = insertAssoc (makeEndpointKey externalName ringURL network etype url)
          { url := url, network := network, etype := etype,
            externalName := externalName, ringURL := ringURL,
            isValidated := false, isWorking := false, errorCount := 0,
            lastValidated := 0, lastError := 0, wsAvailable := false,
            height := 0, latency := 0 } s := by
  simp only [storeAdvertised]
  rw [h]

theorem updateAssoc_inv (key : String) (f : Endpoint → Endpoint) (s : EndpointStore)
    (hs : workingImpliesValidated s)
    (hf : ∀ ep : Endpoint, (ep.isWorking = true → ep.isValidated = true) →
      ((f ep).isWorking = true → (f ep).isValidated = true)) :
    workingImpliesValidated (updateAssoc key f s) := by
  induction s with
  | nil => intro e he; cases he
  | cons kv rest ih =>
    obtain ⟨k, v⟩ := kv
    have hv : v.isWorking = true → v.isValidated = true := hs (k, v) (List.mem_cons_self _ _)
    have hrest : workingImpliesValidated rest := fun e he => hs e (List.mem_cons_of_mem _ he)
    intro e he
    simp only [updateAssoc] at he
    split at he
    · rcases List.mem_cons.mp he with h | h
      · subst h; exact hf v hv
      · exact hrest e h
    · rcases List.mem_cons.mp he with h | h
      · subst h; exact hv
      · exact ih hrest e h

theorem trackProxyError_inv (network etype url : String) (now : Nat) (s : EndpointStore)
    (hs : workingImpliesValidated s) :
    workingImpliesValidated (trackProxyError network etype url now s).1 := by
  induction s with
  | nil => intro e he; cases he
  | cons kv rest ih =>
    obtain ⟨k, v⟩ := kv
    have hv : v.isWorking = true → v.isValidated = true := hs (k, v) (List.mem_cons_self _ _)
    have hrest : workingImpliesValidated rest := fun e he => hs e (List.mem_cons_of_mem _ he)
    intro e he
    simp only [trackProxyError] at he
    split at he
    · rcases List.mem_cons.mp he with h | h
      · subst h; exact bumpError_pres now v hv
      · exact hrest e h
    · rcases List.mem_cons.mp he with h | h
      · subst h; exact hv
      · exact ih hrest e h

theorem applyStoreOp_inv (s : EndpointStore) (op : StoreOp)
    (hs : workingImpliesValidated s) :
    workingImpliesValidated (applyStoreOp s op) := by
  cases op with
  | storeAdvertised externalName ringURL network etype url =>
    show workingImpliesValidated (storeAdvertised externalName ringURL network etype url s)
    cases h : lookupAssoc (makeEndpointKey externalName ringURL network etype url) s with
    | some ep =>
      rw [storeAdvertised_found externalName ringURL network etype url ep s h]
      exact updateAssoc_inv _ _ _ hs (fun ep h' => h')
    | none =>
      rw [storeAdvertised_missing externalName ringURL network etype url s h]
      intro e he
      rcases List.mem_append.mp he with hmem | hmem
      · exact hs e hmem
      · rcases List.mem_singleton.mp hmem with rfl
        intro hw
        simp at hw
  | markValidated externalName ringURL network etype url height latency now =>
    exact updateAssoc_inv _ _ _ hs (fun ep _ _ => rfl)
  | markValidationFailed externalName ringURL network etype url now =>
    exact updateAssoc_inv _ _ _ hs (fun ep _ hw => absurd hw (by simp))
  | incrementErrorCount externalName ringURL network etype url now =>
    exact updateAssoc_inv _ _ _ hs (fun ep h => bumpError_pres now ep h)
  | trackProxyError network etype url now =>
    exact trackProxyError_inv network etype url now s hs
  | updateWebSocketAvailability externalName ringURL network etype url available =>
    exact updateAssoc_inv _ _ _ hs (fun ep h => h)
  | removeEndpoint externalName ringURL network etype url =>
    intro e he
    exact hs e (List.mem_of_mem_filter he)

/-- C9: starting from the empty store, after any sequence of endpoint-store
operations (StoreAdvertised, MarkValidated, MarkValidationFailed,
IncrementErrorCount, TrackProxyError, UpdateWebSocketAvailability,
RemoveEndpoint) every endpoint satisfies `isWorking` implies `isValidated`. -/
theorem endpointStore_invariant (ops : List StoreOp) :
    workingImpliesValidated (ops.foldl applyStoreOp []) := by
  have gen : ∀ s, workingImpliesValidated s →
      workingImpliesValidated (ops.foldl applyStoreOp s) := by
    induction ops with
    | nil => exact fun s hs => hs
    | cons op rest ih =>
      intro s hs
      exact ih (applyStoreOp s op) (applyStoreOp_inv s op hs)
  exact gen [] (fun e he => absurd he (List.not_mem_nil e))

theorem endpointStore_invariant_witness :
    ((("pnf:r:pocket:api:https://a",
       ⟨"https://a", "pocket", "api", "pnf", "r", true, true, 0, 1, 0, false, 100, 5⟩) :
        String × Endpoint)).2.isValidated = true :=
  endpointStore_invariant
    [.storeAdvertised "pnf" "r" "pocket" "api" "https://a",
     .markValidated "pnf" "r" "pocket" "api" "https://a" 100 5 1]
    _ (by decide) rfl

/-! ## C7: latency window -/

theorem lookupAssoc_insert {β : Type} (key : String) (v : β) (s : List (String × β))
    (h : lookupAssoc key s = none) :
    lookupAssoc key (insertAssoc key v s) = some v := by
  induction s with
  | nil => simp [lookupAssoc, insertAssoc]
  | cons kv rest ih =>
    obtain ⟨k, w⟩ := kv
    simp only [lookupAssoc, insertAssoc, List.cons_append, List.find?] at h ⊢
    cases hk : (k == key) with
    | true => rw [hk] at h; simp at h
    | false =>
      rw [hk] at h
      exact ih h

theorem lookupAssoc_update {β : Type} (key : String) (f : β → β) (s : List (String × β)) (v : β)
    (h : lookupAssoc key s = some v) :
    lookupAssoc key (updateAssoc key f s) = some (f v) := by
  induction s with
  | nil => simp [lookupAssoc] at h
  | cons kv rest ih =>
    obtain ⟨k, w⟩ := kv
    simp only [lookupAssoc, List.find?] at h
    by_cases hk : k = key
    · subst hk
      rw [show (k == k) = true from beq_self_eq_true k] at h
      simp at h
      subst h
      simp [updateAssoc, lookupAssoc, List.find?]
    · rw [show (k == key) = false from beq_eq_false_iff_ne.mpr hk] at h
      simp only [updateAssoc, if_neg hk, lookupAssoc, List.find?,
        show (k == key) = false from beq_eq_false_iff_ne.mpr hk]
      exact ih h

theorem hsUpdate_lookup (network node etype : String) (height latency : Int)
    (source : String) (now : Nat) (s : HeightStore) :
    lookupAssoc (heightKey network node etype)
        (hsUpdate network node etype height latency source now s)
      = some (
        let old := (lookupAssoc (heightKey network node etype) s).getD emptyMetrics
        let hist0 := old.latencyHistory ++ [latency]
        let hist := if hist0.length > latencyHistorySize then hist0.drop 1 else hist0
        { old with height := height, timestamp := now, source := source,
                   latencyHistory := hist,
                   avgLatency := Int.tdiv (latencySum hist) (hist.length : Int) }) := by
  simp only [hsUpdate]
  cases h : lookupAssoc (heightKey network node etype) s with
  | some old =>
    exact lookupAssoc_update _ _ _ _ h
  | none =>
    exact lookupAssoc_insert _ _ _ h

/-- C7: for every height-store key, after each `Update` in a finite
sequence of updates on a fresh key, the latency window holds exactly
min(updates so far, 10) entries — the most recent samples, oldest evicted
first — and `avgLatency` is the truncating-integer mean of the window. -/
theorem heightStore_window (network node etype source : String)
    (us : List (Int × Int × Nat)) (s : HeightStore)
    (h0 : lookupAssoc (heightKey network node etype) s = none) (hne : us ≠ []) :
    ∃ m, lookupAssoc (heightKey network node etype)
        (applyHsUpdates network node etype source us s) = some m ∧
      m.latencyHistory
        = (us.map (fun u => u.2.1)).drop (us.length - latencyHistorySize) ∧
      m.latencyHistory.length = min us.length latencyHistorySize ∧
      m.avgLatency = Int.tdiv (latencySum m.latencyHistory) (m.latencyHistory.length : Int) := by
  induction us using List.reverseRecOn with
  | nil => exact absurd rfl hne
  | append_singleton l u ih =>
    have hstep : applyHsUpdates network node etype source (l ++ [u]) s
        = hsUpdate network node etype u.1 u.2.1 source u.2.2
            (applyHsUpdates network node etype source l s) := by
      simp [applyHsUpdates, List.foldl_append]
    by_cases hl : l = []
    · subst hl
      have hlk := hsUpdate_lookup network node etype u.1 u.2.1 source u.2.2
        (applyHsUpdates network node etype source [] s)
      rw [show applyHsUpdates network node etype source [] s = s from rfl, h0] at hlk
      simp only [Option.getD, emptyMetrics, List.nil_append, List.length_cons,
        List.length_nil, latencyHistorySize] at hlk
      rw [if_neg (by norm_num)] at hlk
      rw [hstep]
      exact ⟨_, hlk, by simp [latencyHistorySize], by simp [latencyHistorySize], rfl⟩
    · obtain ⟨m', hm', hwin', hlen', _⟩ := ih hl
      have hlk := hsUpdate_lookup network node etype u.1 u.2.1 source u.2.2
        (applyHsUpdates network node etype source l s)
      rw [hm'] at hlk
      simp only [Option.getD] at hlk
      rw [hstep]
      have hlpos : 0 < l.length := List.length_pos.mpr hl
      by_cases hsmall : l.length < latencyHistorySize
      · -- window not yet full: no eviction
        have hnot : ¬((m'.latencyHistory ++ [u.2.1]).length > latencyHistorySize) := by
          rw [List.length_append, hlen']
          simp only [latencyHistorySize, List.length_singleton] at *
          omega
        rw [if_neg hnot] at hlk
        refine ⟨_, hlk, ?_, ?_, rfl⟩
        · show m'.latencyHistory ++ [u.2.1] = _
          rw [hwin', List.map_append, List.length_append]
          simp only [List.map_cons, List.map_nil, List.length_cons, List.length_nil,
            latencyHistorySize] at *
          rw [show l.length - 10 = 0 by omega, show l.length + 1 - 10 = 0 by omega]
          simp
        · show (m'.latencyHistory ++ [u.2.1]).length = _
          rw [List.length_append, hlen', List.length_append]
          simp only [List.length_cons, List.length_nil, List.length_singleton,
            latencyHistorySize] at *
          omega
      · -- window full: evict the oldest
        have hyes : (m'.latencyHistory ++ [u.2.1]).length > latencyHistorySize := by
          rw [List.length_append, hlen']
          simp only [latencyHistorySize, List.length_singleton] at *
          omega
        rw [if_pos hyes] at hlk
        refine ⟨_, hlk, ?_, ?_, rfl⟩
        · show (m'.latencyHistory ++ [u.2.1]).drop 1 = _
          rw [List.drop_append_eq_append_drop, hwin', List.drop_drop, List.map_append,
            List.drop_append_eq_append_drop]
          simp only [List.map_cons, List.map_nil, List.length_append, List.length_cons,
            List.length_nil, List.length_map, List.length_drop, latencyHistorySize] at *
          congr 1
          · congr 1
            omega
          · congr 1
            omega
        · show ((m'.latencyHistory ++ [u.2.1]).drop 1).length = _
          rw [List.length_drop, List.length_append, hlen', List.length_append]
          simp only [List.length_cons, List.length_nil, List.length_singleton,
            latencyHistorySize] at *
          omega

theorem heightStore_window_witness :
    ∃ m, lookupAssoc (heightKey "pocket" "node-1" "api")
        (applyHsUpdates "pocket" "node-1" "api" "internal"
          [((100 : Int), (50 : Int), (1 : Nat)), (101, 30, 2)] []) = some m ∧
      m.latencyHistory
        = ([((100 : Int), (50 : Int), (1 : Nat)), (101, 30, 2)].map (fun u => u.2.1)).drop
            ([((100 : Int), (50 : Int), (1 : Nat)), (101, 30, 2)].length - latencyHistorySize) ∧
      m.latencyHistory.length
        = min [((100 : Int), (50 : Int), (1 : Nat)), (101, 30, 2)].length latencyHistorySize ∧
      m.avgLatency = Int.tdiv (latencySum m.latencyHistory) (m.latencyHistory.length : Int) :=
  heightStore_window "pocket" "node-1" "api" "internal" _ [] rfl (by simp)

/-! ## C2: height primacy, latency tiebreak, decision reason -/

theorem foldMax_init_le (l : List Candidate) (init : Int) :
    init ≤ l.foldl (fun acc n => if n.metrics.height > acc then n.metrics.height else acc) init := by
  induction l generalizing init with
  | nil => exact le_refl init
  | cons a l ih =>
    refine le_trans ?_ (ih (if a.metrics.height > init then a.metrics.height else init))
    split
    · omega
    · exact le_refl init

theorem foldMax_le_mem (l : List Candidate) (init : Int) (n : Candidate) (hn : n ∈ l) :
    n.metrics.height
      ≤ l.foldl (fun acc m => if m.metrics.height > acc then m.metrics.height else acc) init := by
  induction l generalizing init with
  | nil => cases hn
  | cons a l ih =>
    rw [List.foldl_cons]
    rcases List.mem_cons.mp hn with rfl | hn'
    · refine le_trans ?_ (foldMax_init_le l _)
      show n.metrics.height ≤ if n.metrics.height > init then n.metrics.height else init
      split <;> omega
    · exact ih _ hn'

theorem foldMax_eq_init_or_mem (l : List Candidate) (init : Int) :
    l.foldl (fun acc m => if m.metrics.height > acc then m.metrics.height else acc) init = init
      ∨ ∃ n ∈ l, l.foldl (fun acc m => if m.metrics.height > acc then m.metrics.height else acc) init
          = n.metrics.height := by
  induction l generalizing init with
  | nil => exact Or.inl rfl
  | cons a l ih =>
    have hstep : List.foldl (fun acc m => if m.metrics.height > acc then m.metrics.height else acc)
          init (a :: l)
        = List.foldl (fun acc m => if m.metrics.height > acc then m.metrics.height else acc)
            (if a.metrics.height > init then a.metrics.height else init) l := rfl
    rcases ih (if a.metrics.height > init then a.metrics.height else init) with h | ⟨n, hn, h⟩
    · by_cases ha : a.metrics.height > init
      · exact Or.inr ⟨a, List.mem_cons_self _ _, by rw [hstep, h, if_pos ha]⟩
      · exact Or.inl (by rw [hstep, h, if_neg ha])
    · exact Or.inr ⟨n, List.mem_cons_of_mem _ hn, by rw [hstep]; exact h⟩

theorem maxCandidateHeight_le_mem (l : List Candidate) (n : Candidate) (hn : n ∈ l) :
    n.metrics.height ≤ maxCandidateHeight l :=
  foldMax_le_mem l 0 n hn

theorem maxCandidateHeight_eq_zero_or_mem (l : List Candidate) :
    maxCandidateHeight l = 0 ∨ ∃ n ∈ l, maxCandidateHeight l = n.metrics.height :=
  foldMax_eq_init_or_mem l 0

theorem maxCandidateHeight_of_all_zero (l : List Candidate)
    (h : ∀ n ∈ l, n.metrics.height = 0) : maxCandidateHeight l = 0 := by
  rcases maxCandidateHeight_eq_zero_or_mem l with h0 | ⟨n, hn, he⟩
  · exact h0
  · rw [he]
    exact h n hn

theorem foldMin_fst_le (l : List Candidate) (acc : Int × Option Candidate) :
    (l.foldl (fun acc n =>
      if n.metrics.avgLatency < acc.1 then (n.metrics.avgLatency, some n) else acc) acc).1
      ≤ acc.1 := by
  induction l generalizing acc with
  | nil => exact le_refl _
  | cons a l ih =>
    rw [List.foldl_cons]
    refine le_trans (ih _) ?_
    show (if a.metrics.avgLatency < acc.1 then (a.metrics.avgLatency, some a) else acc).1 ≤ acc.1
    split
    · show a.metrics.avgLatency ≤ acc.1
      omega
    · exact le_refl _

theorem foldMin_fst_le_mem (l : List Candidate) (acc : Int × Option Candidate)
    (n : Candidate) (hn : n ∈ l) :
    (l.foldl (fun acc n =>
      if n.metrics.avgLatency < acc.1 then (n.metrics.avgLatency, some n) else acc) acc).1
      ≤ n.metrics.avgLatency := by
  induction l generalizing acc with
  | nil => cases hn
  | cons a l ih =>
    rw [List.foldl_cons]
    rcases List.mem_cons.mp hn with rfl | hn'
    · refine le_trans (foldMin_fst_le l _) ?_
      show (if n.metrics.avgLatency < acc.1 then (n.metrics.avgLatency, some n) else acc).1
        ≤ n.metrics.avgLatency
      split
      · simp
      · omega
    · exact ih _ hn'

theorem foldMin_snd_lat (l : List Candidate) (acc : Int × Option Candidate)
    (hacc : ∀ c, acc.2 = some c → c.metrics.avgLatency = acc.1) (c : Candidate)
    (hc : (l.foldl (fun acc n =>
      if n.metrics.avgLatency < acc.1 then (n.metrics.avgLatency, some n) else acc) acc).2
        = some c) :
    c.metrics.avgLatency
      = (l.foldl (fun acc n =>
          if n.metrics.avgLatency < acc.1 then (n.metrics.avgLatency, some n) else acc) acc).1 := by
  induction l generalizing acc with
  | nil => exact hacc c hc
  | cons a l ih =>
    rw [List.foldl_cons] at hc ⊢
    refine ih _ ?_ hc
    intro c' hc'
    show c'.metrics.avgLatency
      = (if a.metrics.avgLatency < acc.1 then (a.metrics.avgLatency, some a) else acc).1
    revert hc'
    show (if a.metrics.avgLatency < acc.1 then (a.metrics.avgLatency, some a) else acc).2 = some c' → _
    split
    · intro h
      cases h
      rfl
    · exact hacc c'

theorem foldMin_snd_mem (l : List Candidate) (acc : Int × Option Candidate) (c : Candidate)
    (hc : (l.foldl (fun acc n =>
      if n.metrics.avgLatency < acc.1 then (n.metrics.avgLatency, some n) else acc) acc).2
        = some c) :
    acc.2 = some c ∨ c ∈ l := by
  induction l generalizing acc with
  | nil => exact Or.inl hc
  | cons a l ih =>
    rw [List.foldl_cons] at hc
    rcases ih _ hc with h | h
    · revert h
      show (if a.metrics.avgLatency < acc.1 then (a.metrics.avgLatency, some a) else acc).2
        = some c → _
      split
      · intro h
        cases h
        exact Or.inr (List.mem_cons_self _ _)
      · exact fun h => Or.inl h
    · exact Or.inr (List.mem_cons_of_mem _ h)

theorem selectMinLatency_spec (l : List Candidate) (c : Candidate)
    (hc : (selectMinLatency l).2 = some c) :
    c ∈ l ∧ ∀ n ∈ l, c.metrics.avgLatency ≤ n.metrics.avgLatency := by
  constructor
  · rcases foldMin_snd_mem l (maxInt64, none) c hc with h | h
    · cases h
    · exact h
  · intro n hn
    rw [foldMin_snd_lat l (maxInt64, none) (fun c' h => by cases h) c hc]
    exact foldMin_fst_le_mem l (maxInt64, none) n hn

/-- C2: whenever `GetBestNode` returns a non-nil result, the selected
candidate belongs to the assembled candidate set, its height is the
maximum height over that set (height beats latency), its average latency
is minimal among the candidates at the maximum height, and the decision
reason is "only_available" when the candidate count is 1, "height_winner"
when exactly one candidate is at the maximum height, and
"latency_tiebreaker" otherwise. -/
theorem getBestNode_selection (internals : List Candidate) (externals : List Endpoint)
    (threshold : Int) (best : Candidate) (d : SelectionDecision)
    (h : getBestNode internals externals threshold = some (best, d)) :
    best ∈ assembleCandidates internals externals threshold ∧
    best.metrics.height = maxCandidateHeight (assembleCandidates internals externals threshold) ∧
    (∀ n ∈ assembleCandidates internals externals threshold,
      n.metrics.height ≤ best.metrics.height) ∧
    (∀ n ∈ assembleCandidates internals externals threshold,
      n.metrics.height = best.metrics.height →
        best.metrics.avgLatency ≤ n.metrics.avgLatency) ∧
    d.candidates = (assembleCandidates internals externals threshold).length ∧
    d.reason =
      (if (assembleCandidates internals externals threshold).length = 1 then "only_available"
       else if ((assembleCandidates internals externals threshold).filter
            (fun n => n.metrics.height
              == maxCandidateHeight (assembleCandidates internals externals threshold))).length = 1
         then "height_winner"
       else "latency_tiebreaker") := by
  simp only [getBestNode] at h
  split at h
  · exact absurd h (by simp)
  · split at h
    · exact absurd h (by simp)
    · split at h
      · exact absurd h (by simp)
      · rename_i hlen0 hmax0 best' heq
        injection h with h2
        injection h2 with hbest hd
        subst hbest
        subst hd
        have hsel := selectMinLatency_spec _ _ heq
        have hmemf := hsel.1
        have hmem := List.mem_of_mem_filter hmemf
        have hheight := beq_iff_eq.mp (List.mem_filter.mp hmemf).2
        refine ⟨hmem, hheight, ?_, ?_, rfl, rfl⟩
        · intro n hn
          rw [hheight]
          exact maxCandidateHeight_le_mem _ n hn
        · intro n hn hh
          refine hsel.2 n (List.mem_filter.mpr ⟨hn, ?_⟩)
          rw [beq_iff_eq, hh, hheight]

theorem getBestNode_selection_witness :
    ({ selectedNode := "node-2", reason := "latency_tiebreaker", candidates := 2,
       maxHeight := 100, selectedLatency := 30 } : SelectionDecision).reason
      = (if (assembleCandidates
              [⟨"node-1", ⟨100, 0, "internal", [], 50, false⟩⟩,
               ⟨"node-2", ⟨100, 0, "internal", [], 30, false⟩⟩] [] 0).length = 1
           then "only_available"
         else if ((assembleCandidates
              [⟨"node-1", ⟨100, 0, "internal", [], 50, false⟩⟩,
               ⟨"node-2", ⟨100, 0, "internal", [], 30, false⟩⟩] [] 0).filter
                (fun n => n.metrics.height == maxCandidateHeight (assembleCandidates
                  [⟨"node-1", ⟨100, 0, "internal", [], 50, false⟩⟩,
                   ⟨"node-2", ⟨100, 0, "internal", [], 30, false⟩⟩] [] 0))).length = 1
           then "height_winner"
         else "latency_tiebreaker") :=
  (getBestNode_selection
    [⟨"node-1", ⟨100, 0, "internal", [], 50, false⟩⟩,
     ⟨"node-2", ⟨100, 0, "internal", [], 30, false⟩⟩] [] 0
    ⟨"node-2", ⟨100, 0, "internal", [], 30, false⟩⟩
    { selectedNode := "node-2", reason := "latency_tiebreaker", candidates := 2,
      maxHeight := 100, selectedLatency := 30 }
    (by decide)).2.2.2.2.2

/-! ## C4 and C6: proxy rejection paths -/

/-- C4: when the combined candidate set is empty or every candidate has
height 0, `GetBestNode` returns the three-nil result; the HTTP proxy then
replies 503 "No available nodes" without hijacking, dialing, or
forwarding, and the gRPC proxy returns status Unavailable without
forwarding. -/
theorem no_candidate_rejection (internals : List Candidate) (externals : List Endpoint)
    (threshold : Int) (cfgInternals : List Node) (p : Proto)
    (h : assembleCandidates internals externals threshold = []
      ∨ ∀ n ∈ assembleCandidates internals externals threshold, n.metrics.height = 0) :
    getBestNode internals externals threshold = none ∧
    (∀ isWS parseOk : Bool, serveHTTP internals externals threshold cfgInternals p isWS parseOk
      = { status := some 503, body := "No available nodes",
          hijacked := false, backendDialAttempted := false, forwarded := false }) ∧
    grpcProxyHandler internals externals threshold cfgInternals true
      = .err "Unavailable" "no available nodes" := by
  have hnone : getBestNode internals externals threshold = none := by
    simp only [getBestNode]
    rcases h with h | h
    · rw [if_pos (by rw [h]; rfl)]
    · by_cases h0 : (assembleCandidates internals externals threshold).length = 0
      · rw [if_pos h0]
      · rw [if_neg h0, if_pos (maxCandidateHeight_of_all_zero _ h)]
  refine ⟨hnone, ?_, ?_⟩
  · intro isWS parseOk
    simp only [serveHTTP, hnone]
  · simp only [grpcProxyHandler, hnone]
    rfl

theorem no_candidate_rejection_witness :
    serveHTTP [] [] 0 [] Proto.api false true
        = { status := some 503, body := "No available nodes",
            hijacked := false, backendDialAttempted := false, forwarded := false } ∧
      grpcProxyHandler [] [] 0 [] true = .err "Unavailable" "no available nodes" :=
  ⟨(no_candidate_rejection [] [] 0 [] Proto.api (Or.inl rfl)).2.1 false true,
   (no_candidate_rejection [] [] 0 [] Proto.api (Or.inl rfl)).2.2⟩

/-- C6: on a WebSocket upgrade request, when the chosen candidate has
`wsAvailable = false`, the proxy replies 503 "WebSocket not supported by
selected backend" and the client connection is never hijacked and no
backend dial is attempted. -/
theorem websocket_unavailable_503 (internals : List Candidate) (externals : List Endpoint)
    (threshold : Int) (cfgInternals : List Node) (p : Proto)
    (best : Candidate) (d : SelectionDecision)
    (h : getBestNode internals externals threshold = some (best, d))
    (hurl : getEndpointURL cfgInternals best.name p ≠ "")
    (hws : best.metrics.wsAvailable = false) :
    serveHTTP internals externals threshold cfgInternals p true true
      = { status := some 503, body := "WebSocket not supported by selected backend",
          hijacked := false, backendDialAttempted := false, forwarded := false } := by
  simp only [serveHTTP, h]
  rw [if_neg hurl]
  simp only [handleWebSocket, h, hws, Bool.not_false, Bool.not_true, if_true, if_false]
  rfl

theorem websocket_unavailable_503_witness :
    serveHTTP [⟨"node-1", ⟨100, 0, "internal", [], 50, false⟩⟩] [] 0
        [⟨"node-1", "api.example.com", "rpc.example.com", "grpc.example.com:443", false, "pocket"⟩]
        Proto.rpc true true
      = { status := some 503, body := "WebSocket not supported by selected backend",
          hijacked := false, backendDialAttempted := false, forwarded := false } :=
  websocket_unavailable_503 _ _ _ _ _
    ⟨"node-1", ⟨100, 0, "internal", [], 50, false⟩⟩
    { selectedNode := "node-1", reason := "only_available", candidates := 1,
      maxHeight := 100, selectedLatency := 50 }
    (by decide) (by decide) rfl

/-! ## C10: probe failures preserve the height store -/

theorem apiCheckNode_error_preserves (node : Node) (fa : HTTPFetch APIBlockResponse)
    (latA : Int) (nowA : Nat) (s : HeightStore) (eA : String)
    (hA : (apiCheckNode node fa latA nowA s).2 = some eA) :
    (apiCheckNode node fa latA nowA s).1 = s := by
  by_cases hapi : node.api = ""
  · simp [apiCheckNode, hapi]
  · cases fa with
    | reqError => simp [apiCheckNode, hapi]
    | netError => simp [apiCheckNode, hapi]
    | resp status body =>
      by_cases hst : status = 200
      · subst hst
        cases body with
        | none => simp [apiCheckNode, hapi]
        | some ob =>
          cases ob with
          | none => simp [apiCheckNode, hapi]
          | some r =>
            by_cases hempty : (if r.sdkBlockHeight = "" then r.blockHeight
                else r.sdkBlockHeight) = ""
            · simp [apiCheckNode, hapi, hempty]
            · cases hp : parseInt64 (if r.sdkBlockHeight = "" then r.blockHeight
                  else r.sdkBlockHeight) with
              | none => simp [apiCheckNode, hapi, hempty, hp]
              | some v =>
                exfalso
                simp [apiCheckNode, hapi, hempty, hp] at hA
      · simp [apiCheckNode, hapi, hst]

theorem rpcCheckNode_error_preserves (node : Node) (fr : HTTPFetch RPCStatusResponse)
    (latR : Int) (ws : Bool) (nowR : Nat) (s : HeightStore) (eR : String)
    (hR : (rpcCheckNode node fr latR ws nowR s).2 = some eR) :
    (rpcCheckNode node fr latR ws nowR s).1 = s := by
  by_cases hrpc : node.rpc = ""
  · simp [rpcCheckNode, hrpc]
  · cases fr with
    | reqError => simp [rpcCheckNode, hrpc]
    | netError => simp [rpcCheckNode, hrpc]
    | resp status body =>
      by_cases hst : status = 200
      · subst hst
        cases body with
        | none => simp [rpcCheckNode, hrpc]
        | some ob =>
          cases ob with
          | none => simp [rpcCheckNode, hrpc]
          | some r =>
            cases hp : parseInt64 r.latestBlockHeight with
            | none => simp [rpcCheckNode, hrpc, hp]
            | some v =>
              exfalso
              simp [rpcCheckNode, hrpc, hp] at hR
      · simp [rpcCheckNode, hrpc, hst]

/-- C10: when an API or RPC health probe fails at any stage (request
creation, network error, non-200 status, body read, JSON parse, missing
height, or height parse), the checker returns an error without touching
the height store, so the key's stored height, latency window and average
latency are exactly what they were before the probe. -/
theorem checkNode_failure_preserves_store (node : Node)
    (fa : HTTPFetch APIBlockResponse) (fr : HTTPFetch RPCStatusResponse)
    (latA latR : Int) (ws : Bool) (nowA nowR : Nat) (s : HeightStore) (eA eR : String)
    (hA : (apiCheckNode node fa latA nowA s).2 = some eA)
    (hR : (rpcCheckNode node fr latR ws nowR s).2 = some eR) :
    (apiCheckNode node fa latA nowA s).1 = s
      ∧ (rpcCheckNode node fr latR ws nowR s).1 = s :=
  ⟨apiCheckNode_error_preserves node fa latA nowA s eA hA,
   rpcCheckNode_error_preserves node fr latR ws nowR s eR hR⟩

theorem checkNode_failure_preserves_store_witness :
    (apiCheckNode ⟨"node-1", "api.example.com", "rpc.example.com", "g:443", false, "pocket"⟩
        (.resp 500 (some none)) 5 1
        [(heightKey "pocket" "node-1" "api", ⟨100, 0, "internal", [40], 40, false⟩)]).1
      = [(heightKey "pocket" "node-1" "api", ⟨100, 0, "internal", [40], 40, false⟩)] ∧
    (rpcCheckNode ⟨"node-1", "api.example.com", "rpc.example.com", "g:443", false, "pocket"⟩
        .netError 5 true 1
        [(heightKey "pocket" "node-1" "api", ⟨100, 0, "internal", [40], 40, false⟩)]).1
      = [(heightKey "pocket" "node-1" "api", ⟨100, 0, "internal", [40], 40, false⟩)] :=
  checkNode_failure_preserves_store _ _ _ 5 5 true 1 1 _ "http_status" "network"
    (by decide) (by decide)
